import Mathlib

/-!
Shallow embedding of `src/index.ts` of hirarijs/builder: the tsconfig-paths
esbuild plugin (alias resolution with extension/index probing) and the
configuration-derivation logic of `runBuild` (entry-point discovery,
bundling collapse, module-format inference).  The filesystem and the glob
library are abstract oracles; everything the repository's own code computes
is embedded as executable Lean functions.
-/

namespace Builder

/-- Outcome of one `statSync` call on a path, as seen through `try`/`catch`:
the path is a regular file, a directory, some other kind of entry, absent
(`statSync` throws ENOENT), or the call raises another error (permission
denied, broken symlink, ...). -/
inductive StatResult where
  | file
  | dir
  | other
  | missing
  | errStat
deriving DecidableEq

/-- A filesystem oracle: what `statSync` reports for each path. -/
def FsOracle : Type := String → StatResult

/-- One probe of the alias plugin, embedding
`existsSync(p) && statSync(p).isFile()` wrapped in `try`/`catch`:
true exactly when the path exists and is a regular file; a thrown
filesystem error is caught and yields false. -/
def probeOk (o : FsOracle) (p : String) : Bool :=
  match o p with
  | .file => true
  | _ => false

/-- The fixed extension probe order of the plugin (line 43 of the source). -/
def extensions : List String := [".ts", ".tsx", ".js", ".jsx", ".json"]

/-- Whether `needle` matches the front of the string, character for
character. -/
def startsWithChars : List Char → List Char → Bool
  | [], _ => true
  | _ :: _, [] => false
  | p :: ps, c :: cs => p = c && startsWithChars ps cs

/-- JS `String.prototype.endsWith`: `suffix` matches the back of `s`. -/
def endsWithStr (s suffix : String) : Bool :=
  startsWithChars suffix.toList.reverse s.toList.reverse

/-- Last component of a slash-separated path (Node `path.basename`,
without trailing-slash trimming, which never arises here). -/
def basenameOf (p : String) : String :=
  String.mk ((p.toList.reverse.takeWhile (fun c => c ≠ '/')).reverse)

/-- Rightmost suffix of a character list that starts with a dot. -/
def extScan : List Char → Option (List Char)
  | [] => none
  | c :: cs =>
    match extScan cs with
    | some e => some e
    | none => if c = '.' then some (c :: cs) else none

/-- Node `path.extname`: the substring of the basename from its last dot,
except that a dot in the first position of the basename does not count
(dotfiles such as `.ts` have no extension).  Simplified from Node only in
the degenerate all-dots basenames such as `..`, which never carry a
recognized extension either way. -/
def extname (p : String) : String :=
  match (basenameOf p).toList with
  | [] => ""
  | _ :: rest =>
    match extScan rest with
    | some e => String.mk e
    | none => ""

/-- The two probe loops of the plugin for a resolved candidate without
extension (lines 43-64 of the source): first each extension appended
directly to the candidate, then `/index` plus each extension; the first
probe that reports an existing regular file wins. -/
def resolveNoExt (o : FsOracle) (resolved : String) : Option String :=
  match extensions.find? (fun ext => probeOk o (resolved ++ ext)) with
  | some ext => some (resolved ++ ext)
  | none =>
    match extensions.find? (fun ext => probeOk o (resolved ++ "/index" ++ ext)) with
    | some ext => some (resolved ++ "/index" ++ ext)
    | none => none

/-- The body of the plugin's `onResolve` callback (lines 37-71): apply the
`tsconfig-paths` match function; on a hit, return the candidate unchanged
when it already has an extension, probe otherwise; `none` is esbuild's
"no opinion". -/
def onResolveCallback (o : FsOracle) (matchFn : String → Option String)
    (specifier : String) : Option String :=
  match matchFn specifier with
  | some resolved =>
    if extname resolved = "" then resolveNoExt o resolved
    else some resolved
  | none => none

/-- One character of a compiled alias-key regex: an unescaped `.` in the
key matches any character, every other character matches itself. -/
def charMatch (p c : Char) : Bool := p = '.' || p = c

/-- Split a key at its first `*` (the only `*` JS `String.replace` with a
string pattern rewrites), returning the parts before and after it. -/
def splitAtStar : List Char → Option (List Char × List Char)
  | [] => none
  | c :: cs =>
    if c = '*' then some ([], cs)
    else
      match splitAtStar cs with
      | some (a, b) => some (c :: a, b)
      | none => none

/-- Match a literal pattern fragment against the front of a string,
returning the unconsumed remainder on success. -/
def matchLit : List Char → List Char → Option (List Char)
  | [], s => some s
  | _ :: _, [] => none
  | p :: ps, c :: cs => if charMatch p c then matchLit ps cs else none

/-- Whether the fragment `post` matches at some position of the string
(the `.*post` part of the compiled regex, end unanchored). -/
def matchSomewhere (post : List Char) : List Char → Bool
  | [] => (matchLit post []).isSome
  | c :: cs => (matchLit post (c :: cs)).isSome || matchSomewhere post cs

/-- Whether one alias key, compiled by `key.replace('*', '.*')` into an
alternative of the anchored regex of line 34, matches the specifier.
Keys are assumed to hold at most one `*` (the invariant the source never
validates but the configuration format prescribes). -/
def keyMatches (key specifier : String) : Bool :=
  match splitAtStar key.toList with
  | none => (matchLit key.toList specifier.toList).isSome
  | some (pre, post) =>
    match matchLit pre specifier.toList with
    | some rest => matchSomewhere post rest
    | none => false

/-- The compiled prefix filter of line 34: the union of the alias keys,
anchored at the start of the specifier. -/
def filterMatches (pathKeys : List String) (specifier : String) : Bool :=
  pathKeys.any (fun key => keyMatches key specifier)

/-- The plugin's whole resolution behaviour for one specifier: esbuild
invokes the `onResolve` callback only when the specifier matches the
registered filter regex; otherwise the plugin expresses no opinion and
the callback (the only code touching the filesystem) never runs. -/
def pluginResolve (pathKeys : List String) (matchFn : String → Option String)
    (o : FsOracle) (specifier : String) : Option String :=
  if filterMatches pathKeys specifier then onResolveCallback o matchFn specifier
  else none

/-- The `compilerOptions` member of a parsed tsconfig, restricted to the
fields the plugin setup reads. -/
structure CompilerOpts where
  paths : Option (List (String × List String))
  baseUrl : Option String

/-- A parsed tsconfig object as used by plugin setup: JS destructuring
leaves `compilerOptions` undefined when the member is absent. -/
structure TsConfigJson where
  compilerOptions : Option CompilerOpts

/-- What the plugin's `setup` does before (or instead of) registering the
`onResolve` hook. -/
inductive SetupOutcome where
  | noHook
  | threw
  | installed (pathKeys : List String)
deriving DecidableEq

/-- Plugin setup (lines 14-37): an unreadable tsconfig is caught and setup
returns without a hook; on a parsed config, `compilerOptions.paths` is read
without guarding `compilerOptions` itself, so a config without that member
raises a TypeError out of setup; a config whose `compilerOptions` has no
`paths` returns without a hook; otherwise the hook is registered with the
filter built from the path keys.  `readResult` is `none` when
`readFileSync` threw. -/
def pluginSetup (readResult : Option TsConfigJson) : SetupOutcome :=
  match readResult with
  | none => .noHook
  | some cfg =>
    match cfg.compilerOptions with
    | none => .threw
    | some co =>
      match co.paths with
      | none => .noHook
      | some ps => .installed (ps.map Prod.fst)

/-- Output module formats of the builder. -/
inductive Format where
  | cjs
  | esm
  | iife
deriving DecidableEq

/-- Whether `needle` occurs as a contiguous substring of `hay`
(JS `String.prototype.includes`). -/
def hasSubstr (needle : List Char) : List Char → Bool
  | [] => startsWithChars needle []
  | c :: cs => startsWithChars needle (c :: cs) || hasSubstr needle cs

/-- JS `String.prototype.toLowerCase` on the ASCII module-system names. -/
def toLowerStr (s : String) : String :=
  String.mk (s.toList.map Char.toLower)

/-- `moduleToFormat` (lines 76-82): JS `!moduleOption` is true both for
an absent option and for the empty string, and both yield `cjs`; any
other value is lowercased and mapped to `cjs` when it contains the
substring `commonjs`, to `esm` otherwise. -/
def moduleToFormat (moduleOption : Option String) : Format :=
  match moduleOption with
  | none => .cjs
  | some s =>
    if s = "" then .cjs
    else if hasSubstr "commonjs".toList (toLowerStr s).toList then .cjs
    else .esm

/-- Format selection of line 149: the caller's explicit override wins,
else the format inferred from `compilerOptions.module`. -/
def formatSelect (override : Option Format) (moduleOption : Option String) : Format :=
  match override with
  | some f => f
  | none => moduleToFormat moduleOption

/-- Node `path.resolve(dir, p)` for an absolute `dir`, simplified: an
absolute `p` stands alone, a relative one is joined to `dir`.  No `.` or
`..` segment collapsing (no pattern in play contains them). -/
def resolveP (dir p : String) : String :=
  if startsWithChars "/".toList p.toList then p else dir ++ "/" ++ p

/-- The glob library as an oracle: from the expanded include patterns and
the optional exclude patterns to the absolute paths it reports (the
`nodir`, `absolute`, `cwd` options folded into the oracle). -/
def GlobOracle : Type := List String → Option (List String) → List String

/-- Include-pattern expansion (lines 155-165): a pattern whose resolution
against the tsconfig directory is an existing directory is rewritten to
the recursive glob under it; a failed `statSync` falls back to the raw
pattern. -/
def includeExpand (o : FsOracle) (dir pattern : String) : String :=
  match o (resolveP dir pattern) with
  | .dir => pattern ++ "/**/*"
  | _ => pattern

/-- Entry-point discovery from `include`/`exclude` (lines 154-178):
expand each include pattern, glob with excludes removed, and keep only
paths whose `statSync` reports a regular file (a thrown error drops the
path). -/
def discoverInclude (o : FsOracle) (g : GlobOracle) (dir : String)
    (inc : List String) (exc : Option (List String)) : List String :=
  ((g (inc.map (includeExpand o dir)) exc).filter
    (fun p => probeOk o p))

/-- The bundling collapse of lines 183-191: with bundling requested and
more than one discovered entry point, keep the first whose path ends in
`main.ts` or `index.ts`, else the first discovered. -/
def collapseEntries (shouldBundle : Bool) (entryPoints : List String) : List String :=
  if shouldBundle && entryPoints.length > 1 then
    match entryPoints.find? (fun ep => endsWithStr ep "main.ts" || endsWithStr ep "index.ts") with
    | some mainEntry => [mainEntry]
    | none => entryPoints.take 1
  else entryPoints

/-- The entry-point fields of a parsed tsconfig. -/
structure BuildConfig where
  files : Option (List String)
  incl : Option (List String)
  excl : Option (List String)

/-- Entry-point computation of `runBuild` (lines 151-192): an explicit
`files` list is resolved verbatim (note: JS treats an empty array as
truthy, so `files: []` yields zero entry points); else `include` drives
glob discovery followed by the bundling collapse; with neither, the list
stays empty.  The collapse lives inside the `include` branch only. -/
def computeEntryPoints (o : FsOracle) (g : GlobOracle) (dir : String)
    (cfg : BuildConfig) (shouldBundle : Bool) : List String :=
  match cfg.files with
  | some fs => fs.map (resolveP dir)
  | none =>
    match cfg.incl with
    | some inc => collapseEntries shouldBundle (discoverInclude o g dir inc cfg.excl)
    | none => []

/-- What `runBuild` does right after entry-point computation. -/
inductive BuildStep where
  | fatalExit (code : Nat)
  | bundling (entryPoints : List String)
deriving DecidableEq

/-- Lines 194-197: zero entry points exit the process with code 1 before
`build` is ever invoked; otherwise bundling proceeds on the computed
list. -/
def entryPhase (o : FsOracle) (g : GlobOracle) (dir : String)
    (cfg : BuildConfig) (shouldBundle : Bool) : BuildStep :=
  let eps := computeEntryPoints o g dir cfg shouldBundle
  if eps.isEmpty then .fatalExit 1 else .bundling eps

/-- The base name of a path with its extension stripped. -/
def stemOf (p : String) : String :=
  let b := (basenameOf p).toList
  String.mk (b.take (b.length - (extname p).toList.length))

/-- Spec-side collapse rule, written from the claim's words for
comparison with `collapseEntries`: prefer the first path in discovery
order whose base name is literally `main` or `index`, else the first
discovered path. -/
def specCollapse (shouldBundle : Bool) (entryPoints : List String) : List String :=
  if shouldBundle && entryPoints.length > 1 then
    match entryPoints.find? (fun ep => stemOf ep = "main" || stemOf ep = "index") with
    | some mainEntry => [mainEntry]
    | none => entryPoints.take 1
  else entryPoints

/-- Claim C5: a specifier that does not match the compiled prefix filter gets
"no opinion" with no filesystem access: the result is `none` and is the
same under any two filesystem oracles. -/
theorem no_filter_match_no_opinion (pathKeys : List String)
    (matchFn : String → Option String) (o o' : FsOracle) (specifier : String)
    (hf : filterMatches pathKeys specifier = false) :
    pluginResolve pathKeys matchFn o specifier = none ∧
    pluginResolve pathKeys matchFn o specifier = pluginResolve pathKeys matchFn o' specifier := by
  simp [pluginResolve, hf]

theorem no_filter_match_no_opinion_witness :
    filterMatches ["@app/*"] "react" = false ∧
    pluginResolve ["@app/*"] (fun _ => some "/p/src/x")
      (fun _ => StatResult.file) "react" = none :=
  ⟨by decide,
    (no_filter_match_no_opinion ["@app/*"] (fun _ => some "/p/src/x")
      (fun _ => StatResult.file) (fun _ => StatResult.missing) "react" (by decide)).1⟩

/-- Claim C9: a filesystem error raised by a probe is treated exactly as
non-existence of that candidate: replacing every erroring stat by
"missing" in the oracle leaves the plugin's resolution of every
specifier unchanged, and in particular no error ever aborts
resolution. -/
theorem probe_error_as_nonexistence (pathKeys : List String)
    (matchFn : String → Option String) (o : FsOracle) (specifier : String) :
    pluginResolve pathKeys matchFn
        (fun p => if o p = .errStat then .missing else o p) specifier =
      pluginResolve pathKeys matchFn o specifier := by
  have hp : ∀ p, probeOk (fun q => if o q = .errStat then .missing else o q) p
      = probeOk o p := by
    intro p
    unfold probeOk
    by_cases h : o p = .errStat <;> simp [h]
  have hr : ∀ r, resolveNoExt (fun q => if o q = .errStat then .missing else o q) r
      = resolveNoExt o r := by
    intro r
    unfold resolveNoExt
    simp only [hp]
  unfold pluginResolve onResolveCallback
  cases matchFn specifier <;> simp [hr]

/-- Claim C10: an unreadable tsconfig or a `compilerOptions` without `paths`
leaves the plugin without a hook, but a parsed tsconfig with no
`compilerOptions` member at all makes setup throw a TypeError (reading
`.paths` of `undefined`), which fails the build — contradicting the
claim that the plugin never fails the build in the no-paths case. -/
theorem missing_compiler_options_throws :
    pluginSetup (some ⟨none⟩) = SetupOutcome.threw ∧
    pluginSetup (some ⟨none⟩) ≠ SetupOutcome.noHook ∧
    pluginSetup none = SetupOutcome.noHook ∧
    pluginSetup (some ⟨some ⟨none, none⟩⟩) = SetupOutcome.noHook := by
  refine ⟨rfl, by decide, rfl, rfl⟩

/-- Claim C7 counterexample: the empty string is a declared `module` value that
contains no `commonjs` token, so the claim maps it to `esm`; the code
treats it as falsy and yields `cjs`. -/
theorem module_format_cex :
    moduleToFormat (some "") = Format.cjs ∧
    hasSubstr "commonjs".toList (toLowerStr "").toList = false ∧
    Format.cjs ≠ Format.esm := by
  refine ⟨rfl, by decide, by decide⟩

/-- Claim C7 amended: an explicit caller override is used as-is; a declared
module string containing the `commonjs` token (case-insensitively) maps
to `cjs`; every other non-empty declared value maps to `esm`; an absent
or empty module declaration defaults to `cjs`. -/
theorem module_format_amended :
    (∀ f mo, formatSelect (some f) mo = f) ∧
    formatSelect none none = Format.cjs ∧
    formatSelect none (some "") = Format.cjs ∧
    (∀ s, s ≠ "" → hasSubstr "commonjs".toList (toLowerStr s).toList = true →
      formatSelect none (some s) = Format.cjs) ∧
    (∀ s, s ≠ "" → hasSubstr "commonjs".toList (toLowerStr s).toList = false →
      formatSelect none (some s) = Format.esm) := by
  refine ⟨fun f mo => rfl, rfl, rfl, ?_, ?_⟩
  · intro s hs ht
    simp at ht
    simp [formatSelect, moduleToFormat, hs, ht]
  · intro s hs ht
    simp at ht
    simp [formatSelect, moduleToFormat, hs, ht]

/-- Claim C1: for a substituted candidate without extension, resolution equals
the first existing regular file among the candidates probed in the fixed
order: each extension of `.ts, .tsx, .js, .jsx, .json` appended directly,
then `/index` plus each extension; in particular any existing direct
candidate beats every index candidate. -/
theorem alias_probe_order (pathKeys : List String)
    (matchFn : String → Option String) (o : FsOracle) (specifier resolved : String)
    (hf : filterMatches pathKeys specifier = true)
    (hm : matchFn specifier = some resolved)
    (he : extname resolved = "") :
    pluginResolve pathKeys matchFn o specifier =
      (extensions.map (fun ext => resolved ++ ext) ++
        extensions.map (fun ext => resolved ++ "/index" ++ ext)).find? (probeOk o) ∧
    ((extensions.map (fun ext => resolved ++ ext)).any (probeOk o) = true →
      ∃ ext ∈ extensions, pluginResolve pathKeys matchFn o specifier = some (resolved ++ ext)) := by
  have hres : pluginResolve pathKeys matchFn o specifier = resolveNoExt o resolved := by
    simp [pluginResolve, hf, onResolveCallback, hm, he]
  constructor
  · rw [hres, List.find?_append, List.find?_map, List.find?_map]
    unfold resolveNoExt
    simp only [Function.comp_def]
    cases h1 : extensions.find? (fun ext => probeOk o (resolved ++ ext)) with
    | some e => simp [h1]
    | none =>
      simp only [h1]
      cases h2 : extensions.find? (fun ext => probeOk o (resolved ++ "/index" ++ ext)) with
      | some e => simp [h2]
      | none => simp [h2]
  · intro ha
    simp only [List.any_eq_true, List.mem_map] at ha
    obtain ⟨x, ⟨e, he1, rfl⟩, hpx⟩ := ha
    have hs : (extensions.find? (fun ext => probeOk o (resolved ++ ext))).isSome := by
      rw [List.find?_isSome]
      exact ⟨e, he1, hpx⟩
    obtain ⟨e', he'⟩ := Option.isSome_iff_exists.mp hs
    refine ⟨e', List.mem_of_find?_eq_some he', ?_⟩
    rw [hres]
    unfold resolveNoExt
    rw [he']

theorem alias_probe_order_witness :
    pluginResolve ["@app/*"] (fun s => if s = "@app/foo" then some "/p/src/foo" else none)
      (fun p => if p = "/p/src/foo.tsx" then StatResult.file else StatResult.missing)
      "@app/foo" = some "/p/src/foo.tsx" := by
  have h := (alias_probe_order ["@app/*"]
      (fun s => if s = "@app/foo" then some "/p/src/foo" else none)
      (fun p => if p = "/p/src/foo.tsx" then StatResult.file else StatResult.missing)
      "@app/foo" "/p/src/foo" (by decide) (by decide) (by decide)).1
  rw [h]
  decide

/-- Claim C2 counterexample: the code collapses by the suffix test
`endsWith(main.ts) || endsWith(index.ts)`, so `/p/domain.ts` (base name
`domain`) wins over the later `/p/main.ts`, while the claim's base-name
rule picks `/p/main.ts`; and a `files`-based discovery of two entry
points is not collapsed at all even with bundling requested. -/
theorem bundling_collapse_cex :
    collapseEntries true ["/p/other.ts", "/p/domain.ts", "/p/main.ts"] = ["/p/domain.ts"] ∧
    specCollapse true ["/p/other.ts", "/p/domain.ts", "/p/main.ts"] = ["/p/main.ts"] ∧
    stemOf "/p/domain.ts" ≠ "main" ∧ stemOf "/p/domain.ts" ≠ "index" ∧
    computeEntryPoints (fun _ => StatResult.missing) (fun _ _ => []) "/p"
      ⟨some ["x.ts", "y.ts"], none, none⟩ true = ["/p/x.ts", "/p/y.ts"] := by
  refine ⟨by decide, by decide, by decide, by decide, by decide⟩

/-- Claim C2 amended: only include-based discovery is collapsed; with bundling
requested and more than one discovered entry point the result is the
first path in discovery order that ends with the suffix `main.ts` or
`index.ts`, else the first discovered path, and exactly one path
remains; a `files` list is never collapsed. -/
theorem bundling_collapse_amended (o : FsOracle) (g : GlobOracle) (dir : String)
    (inc : List String) (exc : Option (List String))
    (h : 1 < (discoverInclude o g dir inc exc).length) :
    (computeEntryPoints o g dir ⟨none, some inc, exc⟩ true =
      match (discoverInclude o g dir inc exc).find?
          (fun ep => endsWithStr ep "main.ts" || endsWithStr ep "index.ts") with
      | some mainEntry => [mainEntry]
      | none => (discoverInclude o g dir inc exc).take 1) ∧
    (computeEntryPoints o g dir ⟨none, some inc, exc⟩ true).length = 1 ∧
    (∀ fs sb, computeEntryPoints o g dir ⟨some fs, some inc, exc⟩ sb = fs.map (resolveP dir)) := by
  have hc : computeEntryPoints o g dir ⟨none, some inc, exc⟩ true
      = collapseEntries true (discoverInclude o g dir inc exc) := rfl
  have heq : computeEntryPoints o g dir ⟨none, some inc, exc⟩ true =
      match (discoverInclude o g dir inc exc).find?
          (fun ep => endsWithStr ep "main.ts" || endsWithStr ep "index.ts") with
      | some mainEntry => [mainEntry]
      | none => (discoverInclude o g dir inc exc).take 1 := by
    rw [hc]
    unfold collapseEntries
    simp [h]
  refine ⟨heq, ?_, fun fs sb => rfl⟩
  rw [heq]
  cases hfind : (discoverInclude o g dir inc exc).find?
      (fun ep => endsWithStr ep "main.ts" || endsWithStr ep "index.ts") with
  | some m => simp [hfind]
  | none =>
    simp [hfind, List.length_take]
    omega

theorem bundling_collapse_amended_witness :
    computeEntryPoints
      (fun p => if p = "/p/a" then StatResult.dir
        else if p = "/p/a/util.ts" then StatResult.file
        else if p = "/p/a/index.ts" then StatResult.file
        else if p = "/p/a/main.ts" then StatResult.file
        else StatResult.missing)
      (fun pats _ => if pats = ["a/**/*"] then
        ["/p/a/util.ts", "/p/a/index.ts", "/p/a/main.ts"] else [])
      "/p" ⟨none, some ["a"], none⟩ true = ["/p/a/index.ts"] := by
  have h := (bundling_collapse_amended
      (fun p => if p = "/p/a" then StatResult.dir
        else if p = "/p/a/util.ts" then StatResult.file
        else if p = "/p/a/index.ts" then StatResult.file
        else if p = "/p/a/main.ts" then StatResult.file
        else StatResult.missing)
      (fun pats _ => if pats = ["a/**/*"] then
        ["/p/a/util.ts", "/p/a/index.ts", "/p/a/main.ts"] else [])
      "/p" ["a"] none (by decide)).1
  rw [h]
  decide

/-- Claim C4: a substituted candidate that already carries a recognized
extension is returned unchanged, and no filesystem probing happens:
the result is identical under any two filesystem oracles. -/
theorem explicit_extension_trusted (pathKeys : List String)
    (matchFn : String → Option String) (o o' : FsOracle)
    (specifier resolved : String)
    (hf : filterMatches pathKeys specifier = true)
    (hm : matchFn specifier = some resolved)
    (he : extname resolved ∈ extensions) :
    pluginResolve pathKeys matchFn o specifier = some resolved ∧
    pluginResolve pathKeys matchFn o specifier = pluginResolve pathKeys matchFn o' specifier := by
  have hne : ¬(extname resolved = "") := by
    intro h
    rw [h] at he
    simp [extensions] at he
  constructor
  · simp [pluginResolve, hf, onResolveCallback, hm, hne]
  · simp [pluginResolve, hf, onResolveCallback, hm, hne]

theorem explicit_extension_trusted_witness :
    pluginResolve ["@app/*"] (fun s => if s = "@app/foo" then some "/p/src/foo.ts" else none)
      (fun _ => StatResult.errStat) "@app/foo" = some "/p/src/foo.ts" ∧
    pluginResolve ["@app/*"] (fun s => if s = "@app/foo" then some "/p/src/foo.ts" else none)
      (fun _ => StatResult.errStat) "@app/foo" =
    pluginResolve ["@app/*"] (fun s => if s = "@app/foo" then some "/p/src/foo.ts" else none)
      (fun _ => StatResult.file) "@app/foo" :=
  explicit_extension_trusted ["@app/*"]
    (fun s => if s = "@app/foo" then some "/p/src/foo.ts" else none)
    (fun _ => StatResult.errStat) (fun _ => StatResult.file)
    "@app/foo" "/p/src/foo.ts" (by decide) (by decide) (by decide)

/-- Claim C6: zero computed entry points make the build exit fatally with code
1 before any bundling is attempted, whichever entry-point source
(`files`, `include`, or neither) produced the empty set. -/
theorem zero_entry_points_fatal (o : FsOracle) (g : GlobOracle) (dir : String)
    (cfg : BuildConfig) (shouldBundle : Bool)
    (h : computeEntryPoints o g dir cfg shouldBundle = []) :
    entryPhase o g dir cfg shouldBundle = .fatalExit 1 ∧
    ∀ eps, entryPhase o g dir cfg shouldBundle ≠ .bundling eps := by
  unfold entryPhase
  rw [h]
  simp

theorem zero_entry_points_fatal_witness :
    entryPhase (fun _ => StatResult.missing) (fun _ _ => []) "/p"
      ⟨some [], none, none⟩ false = .fatalExit 1 ∧
    entryPhase (fun _ => StatResult.missing) (fun _ _ => []) "/p"
      ⟨none, some ["src"], none⟩ false = .fatalExit 1 :=
  ⟨(zero_entry_points_fatal (fun _ => StatResult.missing) (fun _ _ => []) "/p"
      ⟨some [], none, none⟩ false (by decide)).1,
   (zero_entry_points_fatal (fun _ => StatResult.missing) (fun _ _ => []) "/p"
      ⟨none, some ["src"], none⟩ false (by decide)).1⟩

/-- Claim C8: when `src` resolves to an existing directory (and the literal
path `src/**/*` does not, as on any filesystem without directories
named `**` and `*`), the include pattern `src` is expanded to
`src/**/*`, so discovery for `include = [src]` equals discovery for
`include = [src/**/*]`, whatever the glob library and the remaining
configuration do. -/
theorem include_dir_glob_equiv (o : FsOracle) (g : GlobOracle) (dir : String)
    (exc : Option (List String)) (shouldBundle : Bool)
    (hdir : o (resolveP dir "src") = .dir)
    (hlit : o (resolveP dir "src/**/*") ≠ .dir) :
    computeEntryPoints o g dir ⟨none, some ["src"], exc⟩ shouldBundle =
      computeEntryPoints o g dir ⟨none, some ["src/**/*"], exc⟩ shouldBundle := by
  have h1 : includeExpand o dir "src" = "src/**/*" := by
    unfold includeExpand
    rw [hdir]
    decide
  have h2 : includeExpand o dir "src/**/*" = "src/**/*" := by
    unfold includeExpand
    cases hc : o (resolveP dir "src/**/*")
    · rfl
    · exact absurd hc hlit
    · rfl
    · rfl
    · rfl
  unfold computeEntryPoints discoverInclude
  simp [h1, h2]

theorem include_dir_glob_equiv_witness :
    computeEntryPoints
      (fun p => if p = "/p/src" then .dir else if p = "/p/src/a.ts" then .file
        else StatResult.missing)
      (fun pats _ => if pats = ["src/**/*"] then ["/p/src/a.ts"] else [])
      "/p" ⟨none, some ["src"], none⟩ false =
    computeEntryPoints
      (fun p => if p = "/p/src" then .dir else if p = "/p/src/a.ts" then .file
        else StatResult.missing)
      (fun pats _ => if pats = ["src/**/*"] then ["/p/src/a.ts"] else [])
      "/p" ⟨none, some ["src/**/*"], none⟩ false :=
  include_dir_glob_equiv
    (fun p => if p = "/p/src" then .dir else if p = "/p/src/a.ts" then .file
      else StatResult.missing)
    (fun pats _ => if pats = ["src/**/*"] then ["/p/src/a.ts"] else [])
    "/p" none false (by decide) (by decide)

theorem module_format_amended_witness :
    formatSelect (some Format.iife) (some "CommonJS") = Format.iife ∧
    formatSelect none (some "CommonJS") = Format.cjs ∧
    formatSelect none (some "NodeNext") = Format.esm ∧
    formatSelect none none = Format.cjs := by
  obtain ⟨h1, h2, _, h4, h5⟩ := module_format_amended
  exact ⟨h1 _ _, h4 "CommonJS" (by decide) (by decide),
    h5 "NodeNext" (by decide) (by decide), h2⟩

end Builder
